import Mathlib

/-!
Shallow embedding of the influxdb-relay core (Go sources: `relay/retry.go`
and the HTTP relay file holding `serveWrite`, `serveQuery`, the posters and
the backend constructors).  Go byte slices are modelled as `List Nat`,
Go strings used as opaque keys as Lean `String`, durations as `Nat`
(milliseconds), and `bytes.Buffer` as the list of bytes it holds.
Fallible constructors return `Option`.
-/

/-- Constant `KB = 1024` from the HTTP relay file. -/
def KB : Nat := 1024

/-- Constant `MB = 1024 * KB` from the HTTP relay file. -/
def MB : Nat := 1024 * KB

/-- Byte sequence of an ASCII string literal, used to write concrete inputs. -/
def bytesOf (s : String) : List Nat := s.data.map Char.toNat

/-- Embedding of `getBuf`: `bytes.NewBuffer(make([]byte, 2*KB))`.
`make([]byte, 2*KB)` is a slice of length `2*KB` whose elements are all zero,
and `bytes.NewBuffer(buf)` uses `buf` as the initial contents of the buffer,
so every buffer returned by `getBuf` already holds 2048 zero bytes; later
writes and `ReadFrom` append after them. -/
def getBuf : List Nat := List.replicate (2 * KB) 0

/-- Embedding of `relay.batchPoints` (retry.go): one admitted record. -/
structure batchPoints where
  Query : String
  Auth : String
  Data : List Nat
deriving DecidableEq

/-- Embedding of `relay.cachedPoints` (retry.go): a coalesced batch held by a
retry buffer.  `Buf` is the accumulator `bytes.Buffer` as its byte list, and
`Time` (create time) is an abstract timestamp in `Nat`. -/
structure cachedPoints where
  Query : String
  Auth : String
  Buf : List Nat
  BufSize : Nat
  Time : Nat
deriving DecidableEq

/-- Embedding of `responseData` from the HTTP relay file.  The Go `Headers`
map is modelled as an association list. -/
structure responseData where
  Headers : List (String × String)
  StatusCode : Nat
  Body : List Nat
deriving DecidableEq

/-- Embedding of the closure `addToCache` inside `retryBuffer.run` (retry.go
lines 80-100).  It scans `r.cachedItems` in order for the first entry with the
same `(Query, Auth)` key; on a hit it appends `points.Data` to that entry's
accumulator and bumps `BufSize` by `len(points.Data)`; if no entry matches it
appends a brand-new `cachedPoints` whose buffer is `bytes.NewBuffer([]byte{})`
and whose `BufSize` is `0` — the Go code does not write `points.Data` into the
newly created batch. -/
def addToCache (now : Nat) : List cachedPoints → batchPoints → List cachedPoints
  | [], p => [⟨p.Query, p.Auth, [], 0, now⟩]
  | c :: rest, p =>
    if c.Auth = p.Auth ∧ c.Query = p.Query then
      { c with Buf := c.Buf ++ p.Data, BufSize := c.BufSize + p.Data.length } :: rest
    else
      c :: addToCache now rest p

/-- Capacity of `r.itemChan`, from `make(chan batchPoints, 10000)` in
`newRetryBuffer`. -/
def chanCapacity : Nat := 10000

/-- Embedding of `retryBuffer.post` (retry.go lines 64-77).  The Go body is an
unconditional channel send `r.itemChan <- batchPoints{...}` followed by
returning a synthetic `204` response with a `nil` error.  A send on a buffered
channel completes only while the buffer has room; with `pending` the records
already buffered, a call when `pending.length < chanCapacity` enqueues and
returns, and a call on a full channel blocks — modelled as `none`: the caller
neither gets a return value nor observes a drop. -/
def retryBufferPost (pending : List batchPoints) (buf : List Nat)
    (query auth : String) : Option (List batchPoints × responseData) :=
  if pending.length < chanCapacity then
    some (pending ++ [⟨query, auth, buf⟩],
          { Headers := [], StatusCode := 204, Body := [] })
  else
    none

/-- Constant `retryInitial = 500 * time.Millisecond` (retry.go), in ms. -/
def retryInitial : Nat := 500

/-- Constant `retryMultiplier = 2` (retry.go). -/
def retryMultiplier : Nat := 2

/-- Outcome of one `r.p.post` call as seen by `postToInfluxDB`: either a
transport error (`err != nil`) or a response with an HTTP status code. -/
inductive FlushAttempt where
  | transportError
  | status (code : Nat)
deriving DecidableEq

/-- The success test of `postToInfluxDB`: `err == nil && resp.StatusCode/100 != 5`. -/
def attemptOK : FlushAttempt → Bool
  | .transportError => false
  | .status code => code / 100 != 5

/-- Embedding of the interval update in `postToInfluxDB` (retry.go lines
117-122): guarded by `interval <= maxInterval`, multiply by `r.multiplier`
and cap at `maxInterval`. -/
def nextInterval (interval maxInterval : Nat) : Nat :=
  if interval ≤ maxInterval then
    let j := interval * retryMultiplier
    if j > maxInterval then maxInterval else j
  else interval

/-- Result of a finished flush: data delivered (`send data` log) or abandoned
(`lost data` log). -/
inductive FlushOutcome where
  | sent
  | lost
deriving DecidableEq

/-- Embedding of the closure `postToInfluxDB` inside `retryBuffer.run`
(retry.go lines 102-126), driven by the list of outcomes the wrapped poster
produces for the successive attempts.  Each loop iteration consumes one
attempt: on success it breaks out; otherwise, if `interval ≥ maxInterval` it
logs the data as lost and breaks; otherwise it advances the interval with
`nextInterval` and sleeps the advanced interval before retrying.  The returned
list records the slept intervals in order; `none` means the attempt list ran
out while the loop was still going to call `post` again. -/
def postToInfluxDB (interval maxInterval : Nat) :
    List FlushAttempt → Option (FlushOutcome × List Nat)
  | [] => none
  | a :: rest =>
    if attemptOK a then some (.sent, [])
    else if interval ≥ maxInterval then some (.lost, [])
    else
      match postToInfluxDB (nextInterval interval maxInterval) maxInterval rest with
      | some (res, sleeps) => some (res, nextInterval interval maxInterval :: sleeps)
      | none => none

/-- C2: the Go code drops the data of the admission that creates a new cached
batch.  First conjunct: for every admission into an empty cache the created
batch has an empty accumulator and size `0`, whatever `p.Data` is.  Second
conjunct: two same-key admissions `[97]` then `[98]` leave a single batch
whose accumulator is `[98]`, not the concatenation `[97] ++ [98]`. -/
theorem C2_first_admission_dropped :
    (∀ (now : Nat) (p : batchPoints),
        addToCache now [] p = [⟨p.Query, p.Auth, [], 0, now⟩]) ∧
    addToCache 1 (addToCache 0 [] ⟨"db=x", "", [97]⟩) ⟨"db=x", "", [98]⟩ =
      [⟨"db=x", "", [98], 1, 0⟩] ∧
    ([98] : List Nat) ≠ [97] ++ [98] := by
  refine ⟨fun now p => rfl, ?_, by decide⟩
  decide

/-- C3: `retryBuffer.post` on a full admission channel blocks instead of
dropping (first conjunct, `none` = the unconditional send does not complete),
while a call with room left enqueues the record and returns the synthetic 204
response with nil error (second conjunct). -/
theorem C3_post_blocks_when_full :
    retryBufferPost (List.replicate chanCapacity ⟨"", "", []⟩) [] "" "" = none ∧
    retryBufferPost [] (bytesOf "d") "db=x" "" =
      some ([⟨"db=x", "", bytesOf "d"⟩],
            { Headers := [], StatusCode := 204, Body := [] }) := by
  constructor
  · simp [retryBufferPost]
  · simp [retryBufferPost, chanCapacity]

/-- C4 counterexample: with `initialInterval = 500` and `maxInterval = 2000`,
after the second failed attempt the current interval is `1000` and the next
interval `nextInterval 1000 2000 = 2000` would equal `maxInterval`, so the
claim says the data is abandoned there with no further attempt; the code
instead sleeps `2000` and consumes a third attempt, which here succeeds.  The
sleep list `[1000, 2000]` shows both retries happened. -/
theorem C4_counterexample :
    postToInfluxDB retryInitial 2000 [.status 500, .status 500, .status 204] =
      some (.sent, [1000, 2000]) ∧
    2000 ≤ nextInterval 1000 2000 := by
  constructor
  · decide
  · decide

/-- C4 amended: a flush terminates immediately on success (transport OK and
status not 5xx); on a failure it abandons the data exactly when the current
interval has already reached `maxInterval` (so one further retry happens after
the interval saturates at the cap, one more than the claim states); on a
failure below the cap it advances the interval to
`nextInterval interval maxInterval` = `min(interval * 2, maxInterval)`, sleeps
that advanced interval, and continues with it. -/
theorem C4_backoff_amended (interval maxI : Nat) (a : FlushAttempt)
    (rest : List FlushAttempt) :
    (attemptOK a = true →
      postToInfluxDB interval maxI (a :: rest) = some (.sent, [])) ∧
    (attemptOK a = false → maxI ≤ interval →
      postToInfluxDB interval maxI (a :: rest) = some (.lost, [])) ∧
    (attemptOK a = false → interval < maxI →
      postToInfluxDB interval maxI (a :: rest) =
        (postToInfluxDB (nextInterval interval maxI) maxI rest).map
          (fun pr => (pr.1, nextInterval interval maxI :: pr.2))) := by
  refine ⟨?_, ?_, ?_⟩
  · intro h
    simp [postToInfluxDB, h]
  · intro h hle
    simp [postToInfluxDB, h, hle]
  · intro h hlt
    have hge : ¬ interval ≥ maxI := by omega
    simp only [postToInfluxDB, h, Bool.false_eq_true, if_false, hge]
    cases postToInfluxDB (nextInterval interval maxI) maxI rest with
    | none => simp
    | some pr => cases pr with
      | mk res sleeps => simp

/-- C4 witness: a failed attempt at the saturated interval is abandoned. -/
theorem C4_witness :
    postToInfluxDB 2000 2000 [.status 500] = some (.lost, []) :=
  (C4_backoff_amended 2000 2000 (.status 500) []).2.1 rfl (Nat.le_refl 2000)

/-- Two cached batches have the same key when their `(Query, Auth)` pairs agree. -/
def sameKey (c d : cachedPoints) : Prop := c.Query = d.Query ∧ c.Auth = d.Auth

/-- Every element of `addToCache now s p` carries either the key of some
element of `s` or the key of the admitted record `p`. -/
theorem addToCache_mem_key (now : Nat) (s : List cachedPoints) (p : batchPoints) :
    ∀ d ∈ addToCache now s p,
      (∃ c ∈ s, d.Query = c.Query ∧ d.Auth = c.Auth) ∨
      (d.Query = p.Query ∧ d.Auth = p.Auth) := by
  induction s with
  | nil =>
    intro d hd
    simp only [addToCache, List.mem_singleton] at hd
    subst hd
    exact Or.inr ⟨rfl, rfl⟩
  | cons c rest ih =>
    intro d hd
    simp only [addToCache] at hd
    by_cases h : c.Auth = p.Auth ∧ c.Query = p.Query
    · rw [if_pos h] at hd
      rcases List.mem_cons.mp hd with h1 | h1
      · subst h1
        exact Or.inl ⟨c, List.mem_cons_self _ _, rfl, rfl⟩
      · exact Or.inl ⟨d, List.mem_cons_of_mem _ h1, rfl, rfl⟩
    · rw [if_neg h] at hd
      rcases List.mem_cons.mp hd with h1 | h1
      · subst h1
        exact Or.inl ⟨d, List.mem_cons_self _ _, rfl, rfl⟩
      · rcases ih d h1 with ⟨c', hc', hq, ha⟩ | hk
        · exact Or.inl ⟨c', List.mem_cons_of_mem _ hc', hq, ha⟩
        · exact Or.inr hk

/-- `addToCache` preserves the size bookkeeping: if every batch satisfies
`BufSize = Buf.length` before an admission, every batch does afterwards. -/
theorem addToCache_sizes (now : Nat) (s : List cachedPoints) (p : batchPoints) :
    (∀ c ∈ s, c.BufSize = c.Buf.length) →
    ∀ c ∈ addToCache now s p, c.BufSize = c.Buf.length := by
  induction s with
  | nil =>
    intro _ c hc
    simp only [addToCache, List.mem_singleton] at hc
    subst hc
    rfl
  | cons c rest ih =>
    intro hs d hd
    simp only [addToCache] at hd
    by_cases h : c.Auth = p.Auth ∧ c.Query = p.Query
    · rw [if_pos h] at hd
      rcases List.mem_cons.mp hd with h1 | h1
      · subst h1
        have hc := hs c (List.mem_cons_self _ _)
        simp [hc]
      · exact hs d (List.mem_cons_of_mem _ h1)
    · rw [if_neg h] at hd
      rcases List.mem_cons.mp hd with h1 | h1
      · subst h1
        exact hs d (List.mem_cons_self _ _)
      · exact ih (fun c' hc' => hs c' (List.mem_cons_of_mem _ hc')) d h1

/-- `addToCache` preserves key uniqueness: the new batch is appended only
after the scan of the whole cache found no batch with the admitted key. -/
theorem addToCache_pairwise (now : Nat) (s : List cachedPoints) (p : batchPoints) :
    List.Pairwise (fun c d => ¬ sameKey c d) s →
    List.Pairwise (fun c d => ¬ sameKey c d) (addToCache now s p) := by
  induction s with
  | nil =>
    intro _
    simp [addToCache]
  | cons c rest ih =>
    intro hp
    rcases List.pairwise_cons.mp hp with ⟨hc, hrest⟩
    simp only [addToCache]
    by_cases h : c.Auth = p.Auth ∧ c.Query = p.Query
    · rw [if_pos h]
      refine List.pairwise_cons.mpr ⟨?_, hrest⟩
      intro d hd hk
      exact hc d hd hk
    · rw [if_neg h]
      refine List.pairwise_cons.mpr ⟨?_, ih hrest⟩
      intro d hd hk
      rcases addToCache_mem_key now rest p d hd with ⟨c', hc', hq, ha⟩ | ⟨hq, ha⟩
      · exact hc c' hc' ⟨hk.1.trans hq, hk.2.trans ha⟩
      · exact h ⟨hk.2.trans ha, hk.1.trans hq⟩

/-- One step of the processing loop `retryBuffer.run` as it acts on
`r.cachedItems`: either the non-blocking receive got a record and
`addToCache` merged it, or the scan pass removed the batch at some in-range
index before flushing it (retry.go line 140,
`r.cachedItems = append(r.cachedItems[:index], r.cachedItems[index+1:]...)`;
a removal whose index is at or past the current length panics on the
`r.cachedItems[index+1:]` slice bound, so every surviving state arises from an
in-range removal). -/
inductive RBStep : List cachedPoints → List cachedPoints → Prop where
  | recv (now : Nat) (p : batchPoints) (s : List cachedPoints) :
      RBStep s (addToCache now s p)
  | flush (i : Nat) (s : List cachedPoints) (h : i < s.length) :
      RBStep s (s.eraseIdx i)

/-- States of `r.cachedItems` reachable by the processing loop, starting from
the empty cache set up by `newRetryBuffer`. -/
inductive RBReachable : List cachedPoints → Prop where
  | init : RBReachable []
  | step {s t : List cachedPoints} : RBReachable s → RBStep s t → RBReachable t

/-- The C8 invariant: sizes match accumulators, and keys are pairwise distinct. -/
def RBInv (s : List cachedPoints) : Prop :=
  (∀ c ∈ s, c.BufSize = c.Buf.length) ∧
  List.Pairwise (fun c d => ¬ sameKey c d) s

/-- Each processing-loop step preserves the C8 invariant. -/
theorem RBStep_preserves_inv {s t : List cachedPoints} (hstep : RBStep s t)
    (hinv : RBInv s) : RBInv t := by
  cases hstep with
  | recv now p =>
    exact ⟨addToCache_sizes now s p hinv.1, addToCache_pairwise now s p hinv.2⟩
  | flush i hi =>
    refine ⟨?_, hinv.2.sublist (List.eraseIdx_sublist s i)⟩
    intro c hc
    exact hinv.1 c ((List.eraseIdx_sublist s i).subset hc)

/-- C8: in every state of `r.cachedItems` reachable by the processing loop
(any interleaving of admissions and flush removals from the empty initial
cache), each cached batch's `BufSize` equals the length of its accumulator,
and no two cached batches share a `(Query, Auth)` key. -/
theorem C8_retry_invariants (s : List cachedPoints) (h : RBReachable s) :
    RBInv s := by
  induction h with
  | init => exact ⟨by simp, List.Pairwise.nil⟩
  | step hr hstep ih => exact RBStep_preserves_inv hstep ih

/-- C8 witness: the invariant holds in the concrete state reached by one
admission into the empty cache. -/
theorem C8_witness : RBInv (addToCache 0 [] ⟨"db=x", "", [97]⟩) :=
  C8_retry_invariants _
    (RBReachable.step RBReachable.init (RBStep.recv 0 ⟨"db=x", "", [97]⟩ []))

/-- The body of a `POST /write` request as `serveWrite` sees it after the
`Content-Encoding` check.  Go's `gzip.NewReader` reads and validates only the
gzip header, so a malformed header fails at `NewReader` (`gzipBadHeader`)
while stream corruption after a valid header — e.g. a truncated trailer —
surfaces only as an error from `Read`, which `bodyBuf.ReadFrom` propagates
(`gzipReadErr`).  `gzipValid d` is a well-formed stream decoding to `d`, and
`plain d` is an unencoded body. -/
inductive RequestBody where
  | plain (data : List Nat)
  | gzipValid (data : List Nat)
  | gzipBadHeader
  | gzipReadErr
deriving DecidableEq

/-- Result of the modelled part of `serveWrite`: the HTTP status written to
the client, and, when the handler reaches the fan-out loop, the byte payload
`outBytes` handed to `b.post` for every write-backend. -/
structure WriteOutcome where
  status : Nat
  fanout : Option (List Nat)
deriving DecidableEq

/-- The canonical normalization the spec describes: each parsed point
re-serialized at the request's precision followed by a single newline byte,
concatenated in parse order, and nothing else. -/
def canonicalBytes {P : Type} (ser : P → String → List Nat) (prec : String)
    (points : List P) : List Nat :=
  points.foldl (fun acc p => acc ++ ser p prec ++ [10]) []

/-- Embedding of `serveWrite` from the decoded body on (relay file lines
226-258), parameterized by the external line-protocol parser
(`models.ParsePointsWithPrecision`, `none` = parse error) and serializer
(`p.PrecisionString`).  `bodyBuf := getBuf()` already holds 2048 zero bytes
and `bodyBuf.ReadFrom(body)` appends the decoded body after them, so the
parser is fed `getBuf ++ d`; on parse failure the handler answers 400
("unable to parse points").  `outBuf := getBuf()` likewise starts with 2048
zero bytes, and the loop appends `p.PrecisionString(precision)` and `'\n'`
for each point (`bytes.Buffer` writes never return a non-nil error, so the
500 "problem writing points" branch is unreachable); `outBuf.Bytes()` is the
payload handed to every backend, and the client gets 204. -/
def serveWriteDecoded {P : Type} (parse : List Nat → String → Option (List P))
    (ser : P → String → List Nat) (d : List Nat) (precision : String) :
    WriteOutcome :=
  match parse (getBuf ++ d) precision with
  | none => ⟨400, none⟩
  | some points =>
    ⟨204, some (points.foldl (fun acc p => acc ++ ser p precision ++ [10]) getBuf)⟩

/-- Embedding of the body-handling part of `serveWrite` (relay file lines
215-258) for a POST request that already passed the method and `db` checks.
For `gzipBadHeader` the handler writes the 400 JSON error "unable to decode
gzip body" (and, missing a `return`, goes on to dereference the nil gzip
reader — the 400 is the response written).  For `gzipReadErr` the error
surfaces from `bodyBuf.ReadFrom`, answered with 500 "problem reading request
body". -/
def serveWriteCore {P : Type} (parse : List Nat → String → Option (List P))
    (ser : P → String → List Nat) (body : RequestBody) (precision : String) :
    WriteOutcome :=
  match body with
  | .plain d => serveWriteDecoded parse ser d precision
  | .gzipValid d => serveWriteDecoded parse ser d precision
  | .gzipBadHeader => ⟨400, none⟩
  | .gzipReadErr => ⟨500, none⟩

/-- Folding the serialize-and-newline writes over an accumulator prepends the
accumulator to the fold over the empty buffer. -/
theorem foldl_serialize_append {P : Type} (ser : P → String → List Nat)
    (prec : String) :
    ∀ (l : List P) (acc : List Nat),
      l.foldl (fun a p => a ++ ser p prec ++ [10]) acc =
        acc ++ l.foldl (fun a p => a ++ ser p prec ++ [10]) [] := by
  intro l
  induction l with
  | nil => intro acc; simp
  | cons p t ih =>
    intro acc
    simp only [List.foldl_cons]
    rw [ih (acc ++ ser p prec ++ [10]), ih ([] ++ ser p prec ++ [10])]
    simp [List.append_assoc]

/-- C1 (code bug): for every write whose (buffer-corrupted) parse succeeds,
the payload handed to every write-backend's `post` is `getBuf` — 2048 zero
bytes — followed by the canonical concatenation of the re-serialized points,
and therefore is NOT the canonical concatenation the claim states. -/
theorem C1_write_payload_code_bug {P : Type}
    (parse : List Nat → String → Option (List P)) (ser : P → String → List Nat)
    (body : List Nat) (prec : String) (points : List P)
    (h : parse (getBuf ++ body) prec = some points) :
    (serveWriteCore parse ser (.plain body) prec).status = 204 ∧
    (serveWriteCore parse ser (.plain body) prec).fanout =
      some (getBuf ++ canonicalBytes ser prec points) ∧
    (serveWriteCore parse ser (.plain body) prec).fanout ≠
      some (canonicalBytes ser prec points) := by
  have hcore : serveWriteCore parse ser (.plain body) prec =
      ⟨204, some (getBuf ++ canonicalBytes ser prec points)⟩ := by
    simp only [serveWriteCore, serveWriteDecoded, h]
    rw [foldl_serialize_append ser prec points getBuf]
    rfl
  refine ⟨by rw [hcore], by rw [hcore], ?_⟩
  rw [hcore]
  intro hEq
  have h2 : getBuf ++ canonicalBytes ser prec points =
      canonicalBytes ser prec points := Option.some.inj hEq
  have h3 := congrArg List.length h2
  simp only [getBuf, KB, List.length_append, List.length_replicate] at h3
  omega

/-- A stand-in for the external line-protocol parser used to instantiate the
write-path theorems on a concrete input: it returns the whole input as one
point. -/
def parseOneBlob : List Nat → String → Option (List (List Nat)) :=
  fun bs _ => some [bs]

/-- A stand-in for the external point serializer: the point's own bytes. -/
def serBlob : List Nat → String → List Nat := fun p _ => p

/-- The body of the spec's end-to-end write scenario. -/
def cpuWriteBody : List Nat := bytesOf "cpu value=1 1700000000"

/-- C1 witness: on the concrete write body the fan-out payload differs from
the canonical bytes. -/
theorem C1_witness :
    (serveWriteCore parseOneBlob serBlob (.plain cpuWriteBody) "s").fanout ≠
      some (canonicalBytes serBlob "s" [getBuf ++ cpuWriteBody]) :=
  (C1_write_payload_code_bug parseOneBlob serBlob cpuWriteBody "s"
    [getBuf ++ cpuWriteBody] rfl).2.2

/-- C7 counterexample: a gzip body whose corruption surfaces while reading —
the claim's own example, a truncated trailer — is answered with 500, not the
400 the claim states. -/
theorem C7_counterexample :
    (serveWriteCore parseOneBlob serBlob RequestBody.gzipReadErr "s").status = 500 ∧
    (serveWriteCore parseOneBlob serBlob RequestBody.gzipReadErr "s").status ≠ 400 := by
  exact ⟨rfl, by decide⟩

/-- C7 amended: a malformed gzip header (rejected by `gzip.NewReader`) yields
400, while gzip corruption detected only while reading the decompressed body
— such as a truncated trailer — yields 500. -/
theorem C7_gzip_amended {P : Type} (parse : List Nat → String → Option (List P))
    (ser : P → String → List Nat) (prec : String) :
    (serveWriteCore parse ser .gzipBadHeader prec).status = 400 ∧
    (serveWriteCore parse ser .gzipReadErr prec).status = 500 :=
  ⟨rfl, rfl⟩

/-- C7 witness: the amended statement at a concrete instantiation. -/
theorem C7_witness :
    (serveWriteCore parseOneBlob serBlob RequestBody.gzipBadHeader "s").status = 400 :=
  (C7_gzip_amended parseOneBlob serBlob "s").1

/-- ASCII uppercase on one byte; models `strings.ToUpper` for the ASCII
inputs the classifier compares against (on ASCII, Go's rune-wise `ToUpper`
acts bytewise). -/
def asciiUpper (b : Nat) : Nat := if 97 ≤ b ∧ b ≤ 122 then b - 32 else b

/-- ASCII lowercase on one byte, used to state case-insensitivity. -/
def asciiLower (b : Nat) : Nat := if 65 ≤ b ∧ b ≤ 90 then b + 32 else b

/-- `strings.ToUpper(q)` on the byte view of the query parameter. -/
def goToUpper (s : List Nat) : List Nat := s.map asciiUpper

/-- Membership in the cutset `" \t\r\n"` of the `strings.Trim` call. -/
def isTrimByte (b : Nat) : Bool := b == 32 || b == 9 || b == 13 || b == 10

/-- `strings.Trim(s, " \t\r\n")`: strip cutset bytes from both ends. -/
def goTrim (s : List Nat) : List Nat :=
  ((s.dropWhile isTrimByte).reverse.dropWhile isTrimByte).reverse

/-- `strings.Split(s, " ")`: split on every single space byte; always yields
at least one (possibly empty) token. -/
def goSplitSpace : List Nat → List (List Nat)
  | [] => [[]]
  | b :: rest =>
    if b == 32 then [] :: goSplitSpace rest
    else
      match goSplitSpace rest with
      | t :: ts => (b :: t) :: ts
      | [] => [[b]]

/-- `tokens[0]` of the split. -/
def firstToken (s : List Nat) : List Nat := (goSplitSpace s).headD []

/-- The token `serveQuery` switches on: the first token of the upper-cased,
trimmed `q` parameter (relay file lines 176-178). -/
def queryToken (q : List Nat) : List Nat := firstToken (goTrim (goToUpper q))

/-- Routing decision of `serveQuery`'s switch: `singleNode` is
`single_node_request` (one randomly chosen query backend), `allNode` is
`all_node_request` (every query backend), `badRequest` is `error_request`
(a 400 JSON error), which serves both the explicit `KILL` arm and the
default arm. -/
inductive QueryRoute where
  | singleNode
  | allNode
  | badRequest
deriving DecidableEq

/-- Tokens of the `case "SELECT", "SHOW"` arm. -/
def singleTokens : List (List Nat) := [bytesOf "SELECT", bytesOf "SHOW"]

/-- Tokens of the `case "DELETE", "DROP", "GRANT", "REVOKE", "ALTER", "SET",
"CREATE"` arm. -/
def allNodeTokens : List (List Nat) :=
  [bytesOf "DELETE", bytesOf "DROP", bytesOf "GRANT", bytesOf "REVOKE",
   bytesOf "ALTER", bytesOf "SET", bytesOf "CREATE"]

/-- Embedding of the classification switch in `serveQuery` (lines 176-187). -/
def classifyQuery (q : List Nat) : QueryRoute :=
  if queryToken q ∈ singleTokens then .singleNode
  else if queryToken q ∈ allNodeTokens then .allNode
  else .badRequest

/-- Upper-casing absorbs a prior lower-casing, bytewise. -/
theorem asciiUpper_asciiLower (b : Nat) : asciiUpper (asciiLower b) = asciiUpper b := by
  simp only [asciiUpper, asciiLower]
  split_ifs <;> omega

/-- Trim-cutset bytes are untouched by upper-casing. -/
theorem asciiUpper_of_trim {b : Nat} (h : isTrimByte b = true) : asciiUpper b = b := by
  simp only [isTrimByte, Bool.or_eq_true, beq_iff_eq] at h
  rcases h with ((h | h) | h) | h <;> subst h <;> decide

/-- Dropping while a predicate holds of every element empties the list. -/
theorem dropWhile_eq_nil_of_all {p : Nat → Bool} :
    ∀ l : List Nat, (∀ b ∈ l, p b = true) → List.dropWhile p l = [] := by
  intro l
  induction l with
  | nil => intro _; rfl
  | cons a t ih =>
    intro h
    rw [List.dropWhile_cons, if_pos (h a (List.mem_cons_self a t))]
    exact ih (fun b hb => h b (List.mem_cons_of_mem a hb))

/-- C6: the query handler classifies by the first space-separated token of
the upper-cased, whitespace-trimmed `q`: it routes to a single query backend
exactly for `SELECT`/`SHOW`, to every query backend exactly for
`DELETE`/`DROP`/`GRANT`/`REVOKE`/`ALTER`/`SET`/`CREATE`, and answers a 400
JSON error otherwise — including `KILL`, an empty/all-whitespace `q`, and any
unknown token; lower- and upper-case spellings classify identically. -/
theorem C6_query_classification :
    (∀ q : List Nat, classifyQuery q = .singleNode ↔ queryToken q ∈ singleTokens) ∧
    (∀ q : List Nat, classifyQuery q = .allNode ↔
      (queryToken q ∉ singleTokens ∧ queryToken q ∈ allNodeTokens)) ∧
    (∀ q : List Nat, classifyQuery q = .badRequest ↔
      (queryToken q ∉ singleTokens ∧ queryToken q ∉ allNodeTokens)) ∧
    (∀ q : List Nat, (∀ b ∈ q, isTrimByte b = true) → classifyQuery q = .badRequest) ∧
    (∀ q : List Nat, classifyQuery (q.map asciiLower) = classifyQuery q) ∧
    (classifyQuery (bytesOf "select * from cpu") = .singleNode ∧
     classifyQuery (bytesOf "SELECT * FROM cpu") = .singleNode ∧
     classifyQuery (bytesOf "DROP DATABASE x") = .allNode ∧
     classifyQuery (bytesOf "KILL 7") = .badRequest ∧
     classifyQuery (bytesOf " \t ") = .badRequest ∧
     classifyQuery [] = .badRequest) := by
  refine ⟨?_, ?_, ?_, ?_, ?_, ?_⟩
  · intro q
    unfold classifyQuery
    split_ifs with h1 h2 <;> simp [h1]
  · intro q
    unfold classifyQuery
    split_ifs with h1 h2
    · simp [h1]
    · simp [h1, h2]
    · simp [h1, h2]
  · intro q
    unfold classifyQuery
    split_ifs with h1 h2
    · simp [h1]
    · simp [h1, h2]
    · simp [h1, h2]
  · intro q hq
    have h1 : List.dropWhile isTrimByte (goToUpper q) = [] := by
      refine dropWhile_eq_nil_of_all _ ?_
      intro b hb
      rcases List.mem_map.mp hb with ⟨b0, hb0, rfl⟩
      rw [asciiUpper_of_trim (hq b0 hb0)]
      exact hq b0 hb0
    have htok : queryToken q = [] := by
      simp [queryToken, goTrim, h1, firstToken, goSplitSpace]
    simp only [classifyQuery, htok]
    decide
  · intro q
    have hmap : goToUpper (q.map asciiLower) = goToUpper q := by
      simp only [goToUpper, List.map_map]
      have hf : asciiUpper ∘ asciiLower = asciiUpper :=
        funext fun b => asciiUpper_asciiLower b
      rw [hf]
    simp [classifyQuery, queryToken, hmap]
  · refine ⟨by decide, by decide, by decide, by decide, by decide, by decide⟩

/-- C6 witness: an all-whitespace `q` is classified as a 400 error. -/
theorem C6_witness : classifyQuery (bytesOf " \t") = .badRequest :=
  C6_query_classification.2.2.2.1 (bytesOf " \t") (by decide)

/-- A response as written to the client: the status code sent (Go's
`ResponseWriter` sends the implicit 200 when `Write` is called before any
`WriteHeader`), the headers set, and the body bytes written. -/
structure ClientResponse where
  status : Nat
  headers : List (String × String)
  body : List Nat
deriving DecidableEq

/-- Body bytes written by `jsonError`:
`fmt.Sprintf("{\"error\":%q}\n", message)`. -/
def jsonErrorBody (message : String) : List Nat :=
  bytesOf ("\x7b\"error\":\"" ++ message ++ "\"\x7d\n")

/-- Embedding of `jsonError(w, code, message)` (relay file lines 316-322):
JSON content type, content length, the given status code, and the JSON error
body. -/
def jsonError (code : Nat) (message : String) : ClientResponse :=
  ⟨code,
   [("Content-Type", "application/json"),
    ("Content-Length", toString (jsonErrorBody message).length)],
   jsonErrorBody message⟩

/-- Embedding of `single_node_request` inside `serveQuery` (lines 130-147),
as a function of the outcome of the `post` to the one randomly chosen query
backend (`none` = transport error).  On success the handler copies
`resp.Headers` into the response writer and calls `w.Write(resp.Body)`
without ever calling `WriteHeader`, so the client receives the implicit
status 200; `resp.StatusCode` is never consulted.  On error it answers
`jsonError 400 "request failed"`. -/
def singleNodeRequest (postResult : Option responseData) : ClientResponse :=
  match postResult with
  | some resp => ⟨200, resp.Headers, resp.Body⟩
  | none => jsonError 400 "request failed"

/-- What `all_node_request` writes to the client. -/
inductive AllNodeOutcome where
  | body (b : List Nat)
  | internalError
  | nilPanic
deriving DecidableEq

/-- Embedding of `all_node_request` inside `serveQuery` (lines 149-169), as a
function of the per-backend post outcomes in backend order (`none` =
transport error, in which case `post` also returns a nil response).  The loop
overwrites `resp, err` on every iteration — the `continue` on success has no
further effect ("todo fix the partial success") — so after the loop they hold
the LAST backend's results.  If the final `err` is nil the handler writes
`resp.Body` (implicit status 200; with an empty backend list `resp` is still
nil and `resp.Body` dereferences nil, hence `nilPanic`); otherwise it answers
500 with no body (`internalError`). -/
def allNodeRequest (results : List (Option responseData)) : AllNodeOutcome :=
  let fin := results.foldl (fun _ r => (r, r.isSome))
    ((none : Option responseData), true)
  if fin.2 then
    match fin.1 with
    | some resp => .body resp.Body
    | none => .nilPanic
  else .internalError

/-- C10: on a single-node query whose backend post succeeds at the transport
level, the client receives the backend's headers and body with status 200 —
the backend's own `StatusCode` (be it 2xx, 4xx or 5xx) is never forwarded. -/
theorem C10_single_node_status (resp : responseData) :
    singleNodeRequest (some resp) = ⟨200, resp.Headers, resp.Body⟩ :=
  rfl

/-- C10 witness: a backend 503 still reaches the client as a 200. -/
theorem C10_witness :
    singleNodeRequest (some ⟨[("x-a", "b")], 503, [120]⟩) =
      ⟨200, [("x-a", "b")], [120]⟩ :=
  C10_single_node_status ⟨[("x-a", "b")], 503, [120]⟩

/-- The concrete successful backend response used against C5. -/
def respA : responseData := ⟨[], 200, bytesOf "A"⟩

/-- C5 counterexample: with two query backends, the first succeeding with
body "A" and the second (last) failing, the client receives 500 — although
not every backend failed and the last successful body was "A", so the claim's
"last successful body / 500 exactly when all fail" is false. -/
theorem C5_counterexample :
    allNodeRequest [some respA, none] = .internalError ∧
    AllNodeOutcome.internalError ≠ .body respA.Body := by
  exact ⟨rfl, by simp⟩

/-- C5 amended: the client response is decided by the final query backend
alone — the body written is the last backend's body exactly when the last
post succeeded, and the client receives 500 (no body) exactly when the last
backend's post failed, regardless of the earlier backends. -/
theorem C5_last_backend_decides (res : List (Option responseData))
    (last : Option responseData) :
    (∀ r : responseData, last = some r →
        allNodeRequest (res ++ [last]) = .body r.Body) ∧
    (last = none → allNodeRequest (res ++ [last]) = .internalError) := by
  have hfold : (res ++ [last]).foldl (fun _ r => (r, r.isSome))
      ((none : Option responseData), true) = (last, last.isSome) := by
    rw [List.foldl_append]
    rfl
  constructor
  · intro r hr
    subst hr
    simp [allNodeRequest, hfold]
  · intro hr
    subst hr
    simp [allNodeRequest, hfold]

/-- C5 witness: an earlier failure is forgotten when the last backend
succeeds. -/
theorem C5_witness : allNodeRequest [none, some respA] = .body respA.Body :=
  (C5_last_backend_decides [none] (some respA)).1 respA rfl

/-- Query-backend configuration, with the fields `newHttpQueryBackend`
reads: `{name, location, timeout}`. -/
structure HTTPQueryConfig where
  Name : String
  Location : String
  Timeout : String
deriving DecidableEq

/-- Write-backend configuration, with the fields `newHTTPBackend` reads:
`{name, location, timeout, skipTLSVerification, bufferSizeMB, maxBatchKB,
maxDelayInterval}`. -/
structure HTTPOutputConfig where
  Name : String
  Location : String
  Timeout : String
  SkipTLSVerification : Bool
  BufferSizeMB : Nat
  MaxBatchKB : Nat
  MaxDelayInterval : String
deriving DecidableEq

/-- `DefaultHTTPTimeout = 10 * time.Second`, in ms. -/
def DefaultHTTPTimeout : Nat := 10000

/-- `DefaultMaxDelayInterval = 10 * time.Second`, in ms. -/
def DefaultMaxDelayInterval : Nat := 10000

/-- `DefaultBatchSizeKB = 512`. -/
def DefaultBatchSizeKB : Nat := 512

/-- A poster as assembled by the backend constructors: either a
`simplePoster` (location, client timeout, and the `InsecureSkipVerify` flag
of its transport's TLS config) or a `retryBuffer` wrapping another poster
(`newRetryBuffer(size, batch, max, p)`). -/
inductive Poster where
  | simple (location : String) (timeout : Nat) (skipTLSVerification : Bool)
  | retry (maxBuffered maxBatch maxInterval : Nat) (wrapped : Poster)
deriving DecidableEq

/-- Embedding of `newSimplePoster(location, timeout, skipTLSVerification)`
(lines 333-349): records the skip-TLS flag in the client transport. -/
def newSimplePoster (location : String) (timeout : Nat)
    (skipTLSVerification : Bool) : Poster :=
  .simple location timeout skipTLSVerification

/-- Embedding of `httpBackend`: a named poster. -/
structure httpBackend where
  poster : Poster
  name : String
deriving DecidableEq

/-- The timeout computation shared by both constructors: default 10 s, or
`time.ParseDuration(cfg.Timeout)` when non-empty — a parse failure aborts the
constructor.  `parseDuration` abstracts the external `time.ParseDuration`. -/
def backendTimeout (parseDuration : String → Option Nat) (t : String) :
    Option Nat :=
  if t = "" then some DefaultHTTPTimeout else parseDuration t

/-- Embedding of `newHttpQueryBackend` (lines 407-428): the name defaults to
the location, the timeout is parsed as usual, and the poster is
`newSimplePoster(cfg.Location, timeout, true)` — the skip-TLS argument is the
literal `true` ("todo use config skipTLSVerification ?"); no retry buffer is
ever attached. -/
def newHttpQueryBackend (parseDuration : String → Option Nat)
    (cfg : HTTPQueryConfig) : Option httpBackend :=
  match backendTimeout parseDuration cfg.Timeout with
  | none => none
  | some timeout =>
    some ⟨newSimplePoster cfg.Location timeout true,
          if cfg.Name = "" then cfg.Location else cfg.Name⟩

/-- Embedding of `newHTTPBackend` (lines 430-470): the simple poster receives
`cfg.SkipTLSVerification`; when `cfg.BufferSizeMB > 0` it is wrapped in a
retry buffer sized `BufferSizeMB*MB` with batch `MaxBatchKB*KB` (default
`DefaultBatchSizeKB*KB`) and max delay from `MaxDelayInterval` (default 10 s,
parse failure aborts). -/
def newHTTPBackend (parseDuration : String → Option Nat)
    (cfg : HTTPOutputConfig) : Option httpBackend :=
  match backendTimeout parseDuration cfg.Timeout with
  | none => none
  | some timeout =>
    if cfg.BufferSizeMB > 0 then
      match (if cfg.MaxDelayInterval = "" then some DefaultMaxDelayInterval
             else parseDuration cfg.MaxDelayInterval) with
      | none => none
      | some maxI =>
        some ⟨.retry (cfg.BufferSizeMB * MB)
                (if cfg.MaxBatchKB > 0 then cfg.MaxBatchKB * KB
                 else DefaultBatchSizeKB * KB)
                maxI
                (newSimplePoster cfg.Location timeout cfg.SkipTLSVerification),
              if cfg.Name = "" then cfg.Location else cfg.Name⟩
    else
      some ⟨newSimplePoster cfg.Location timeout cfg.SkipTLSVerification,
            if cfg.Name = "" then cfg.Location else cfg.Name⟩

/-- The skip-TLS flag of the underlying simple poster, through any retry
wrapper. -/
def posterSkipTLS : Poster → Bool
  | .simple _ _ s => s
  | .retry _ _ _ w => posterSkipTLS w

/-- C9: every successfully constructed query backend has TLS certificate
verification disabled (skip-TLS hardwired `true`) whatever its
configuration, while every successfully constructed write backend's
underlying simple poster carries exactly the configured
`SkipTLSVerification`. -/
theorem C9_skip_tls :
    (∀ (parseDuration : String → Option Nat) (cfg : HTTPQueryConfig)
        (b : httpBackend), newHttpQueryBackend parseDuration cfg = some b →
          posterSkipTLS b.poster = true) ∧
    (∀ (parseDuration : String → Option Nat) (cfg : HTTPOutputConfig)
        (b : httpBackend), newHTTPBackend parseDuration cfg = some b →
          posterSkipTLS b.poster = cfg.SkipTLSVerification) := by
  constructor
  · intro pd cfg b hb
    unfold newHttpQueryBackend at hb
    cases hbt : backendTimeout pd cfg.Timeout with
    | none => simp [hbt] at hb
    | some t =>
      simp only [hbt, Option.some.injEq] at hb
      subst hb
      rfl
  · intro pd cfg b hb
    unfold newHTTPBackend at hb
    cases hbt : backendTimeout pd cfg.Timeout with
    | none => simp [hbt] at hb
    | some t =>
      simp only [hbt] at hb
      by_cases hbuf : cfg.BufferSizeMB > 0
      · rw [if_pos hbuf] at hb
        cases hmd : (if cfg.MaxDelayInterval = "" then some DefaultMaxDelayInterval
                     else pd cfg.MaxDelayInterval) with
        | none => rw [hmd] at hb; simp at hb
        | some m =>
          rw [hmd] at hb
          simp only [Option.some.injEq] at hb
          subst hb
          rfl
      · rw [if_neg hbuf] at hb
        simp only [Option.some.injEq] at hb
        subst hb
        rfl

/-- C9 witness: a concrete query backend comes out with skip-TLS `true`, a
concrete write backend configured with `false` comes out with `false`. -/
theorem C9_witness :
    posterSkipTLS (Poster.simple "http://q" DefaultHTTPTimeout true) = true ∧
    posterSkipTLS (Poster.simple "http://w" DefaultHTTPTimeout false) = false :=
  ⟨C9_skip_tls.1 (fun _ => none) ⟨"n", "http://q", ""⟩
      ⟨Poster.simple "http://q" DefaultHTTPTimeout true, "n"⟩ rfl,
   C9_skip_tls.2 (fun _ => none) ⟨"n", "http://w", "", false, 0, 0, ""⟩
      ⟨Poster.simple "http://w" DefaultHTTPTimeout false, "n"⟩ rfl⟩
